import Mathlib

/-!
Shallow embedding of the Hunty reward contracts
(src/contracts/reward-manager and src/contracts/nft-reward).

Ledger addresses are modelled as natural numbers, `i128` amounts as `Int`,
and the contract's persistent key-value store as total functions with the
never-written defaults (numeric slots read 0, flags read unset).  Each public
entry point is a pure function from an invocation environment and a starting
state to a result, a final state and the list of attempted external calls.
-/

namespace Hunty

/-- Ledger addresses, modelled as natural numbers. -/
abbrev Addr := Nat

/-- Error codes of the reward-manager contract
(src/contracts/reward-manager/src/errors.rs). -/
inductive RewardErrorCode where
  | NotInitialized
  | InsufficientPool
  | AlreadyDistributed
  | TransferFailed
  | InvalidAmount
  | InvalidConfig
  | NftMintFailed
  | PoolAlreadyExists
  | PoolNotFound
  | Unauthorized
  | BelowMinimumAmount
deriving DecidableEq, Repr

/-- Error codes of the nft-reward contract
(src/contracts/nft-reward/src/errors.rs). -/
inductive NftErrorCode where
  | NftNotFound
  | NotOwner
deriving DecidableEq, Repr

/-- Outcome of one invocation: contract success, a typed contract error, or a
host-level abort (failed `require_auth`). -/
inductive InvokeResult (ε : Type) where
  | ok
  | err (e : ε)
  | authTrap
deriving DecidableEq, Repr

/-- Configuration of a reward pool (src/contracts/reward-manager/src/types.rs). -/
structure RewardPoolConfig where
  creator : Addr
  min_distribution_amount : Int
deriving DecidableEq, Repr

/-- A reward-distribution request (src/contracts/reward-manager/src/types.rs). -/
structure RewardConfig where
  xlm_amount : Option Int
  nft_contract : Option Addr
  nft_title : String
  nft_description : String
  nft_image_uri : String
  nft_hunt_title : String
  nft_rarity : Nat
  nft_tier : Nat
deriving DecidableEq, Repr

/-- `RewardConfig::has_xlm`: the fungible part is configured
(`self.xlm_amount.map(|a| a > 0).unwrap_or(false)`). -/
def RewardConfig.has_xlm (c : RewardConfig) : Bool :=
  (c.xlm_amount.map (fun a => decide (a > 0))).getD false

/-- `RewardConfig::has_nft`: the collectible part is configured. -/
def RewardConfig.has_nft (c : RewardConfig) : Bool :=
  c.nft_contract.isSome

/-- `RewardConfig::is_valid`: at least one reward type is configured. -/
def RewardConfig.is_valid (c : RewardConfig) : Bool :=
  c.has_xlm || c.has_nft

/-- Record stored for each completed distribution
(src/contracts/reward-manager/src/types.rs). -/
structure DistributionRecord where
  xlm_amount : Int
  nft_id : Option Nat
deriving DecidableEq, Repr

/-- Result of `validate_pool` (src/contracts/reward-manager/src/types.rs). -/
structure ValidationResult where
  is_valid : Bool
  balance : Int
  required : Int
deriving DecidableEq, Repr

/-- Persistent storage of the reward-manager contract.
Modelled from the spec: the `Storage` module itself is not among the sources;
§2 of the spec describes it as a durable key-value mapping scoped to the
contract, and the repository tests confirm that a slot never written reads as
0 (balances, totals) or unset (flags, configs). -/
structure ContractState where
  xlm_token : Option Addr
  nft_contract : Option Addr
  pool_config : Nat → Option RewardPoolConfig
  pool_balance : Nat → Int
  pool_total_deposited : Nat → Int
  pool_total_distributed : Nat → Int
  distributed : Nat → Addr → Bool
  distribution_record : Nat → Addr → Option DistributionRecord

/-- The state of a freshly deployed reward-manager contract: nothing written. -/
def initialState : ContractState where
  xlm_token := none
  nft_contract := none
  pool_config := fun _ => none
  pool_balance := fun _ => 0
  pool_total_deposited := fun _ => 0
  pool_total_distributed := fun _ => 0
  distributed := fun _ _ => false
  distribution_record := fun _ _ => none

def setPoolConfig (s : ContractState) (hunt_id : Nat) (c : RewardPoolConfig) :
    ContractState :=
  { s with pool_config := Function.update s.pool_config hunt_id (some c) }

def setPoolBalance (s : ContractState) (hunt_id : Nat) (v : Int) : ContractState :=
  { s with pool_balance := Function.update s.pool_balance hunt_id v }

def setPoolTotalDeposited (s : ContractState) (hunt_id : Nat) (v : Int) :
    ContractState :=
  { s with pool_total_deposited := Function.update s.pool_total_deposited hunt_id v }

def setPoolTotalDistributed (s : ContractState) (hunt_id : Nat) (v : Int) :
    ContractState :=
  { s with pool_total_distributed := Function.update s.pool_total_distributed hunt_id v }

def setDistributed (s : ContractState) (hunt_id : Nat) (player : Addr) :
    ContractState :=
  { s with distributed := fun h p =>
      if h = hunt_id ∧ p = player then true else s.distributed h p }

def setDistributionRecord (s : ContractState) (hunt_id : Nat) (player : Addr)
    (r : DistributionRecord) : ContractState :=
  { s with distribution_record := fun h p =>
      if h = hunt_id ∧ p = player then some r else s.distribution_record h p }

/-- Per-invocation environment: the host's authorization decisions and the
outcomes of the external calls made during this invocation.
Modelled from the spec: the transfer and mint handler modules are not among
the sources; §4.2 says the transfer adapter propagates any failure of the
asset-transfer interface, and §4.3 says the mint adapter maps any failure of
the issuance interface to `NftMintFailed` and otherwise returns the fresh
collectible identifier. -/
structure Ext where
  auth : Addr → Bool
  contract_addr : Addr
  transfer_ok : Bool
  mint : Option Nat

/-- An attempted external call (fungible transfer or collectible mint). -/
inductive Effect where
  | xlmTransfer (token src dst : Addr) (amount : Int)
  | nftMint (contract hunt_id : Nat) (recipient : Addr)
deriving DecidableEq, Repr

/-- `RewardManager::create_reward_pool` (src/contracts/reward-manager/src/lib.rs). -/
def create_reward_pool (ext : Ext) (s : ContractState) (creator : Addr)
    (hunt_id : Nat) (min_distribution_amount : Int) :
    InvokeResult RewardErrorCode × ContractState :=
  if ext.auth creator = false then (.authTrap, s)
  else if min_distribution_amount < 0 then (.err .InvalidAmount, s)
  else if (s.pool_config hunt_id).isSome then (.err .PoolAlreadyExists, s)
  else (.ok, setPoolConfig s hunt_id ⟨creator, min_distribution_amount⟩)

/-- `RewardManager::fund_reward_pool` (src/contracts/reward-manager/src/lib.rs).
The third component lists the attempted external transfers. -/
def fund_reward_pool (ext : Ext) (s : ContractState) (funder : Addr)
    (hunt_id : Nat) (amount : Int) :
    InvokeResult RewardErrorCode × ContractState × List Effect :=
  if ext.auth funder = false then (.authTrap, s, [])
  else if amount ≤ 0 then (.err .InvalidAmount, s, [])
  else
    match s.pool_config hunt_id with
    | none => (.err .PoolNotFound, s, [])
    | some pool_config =>
      if funder ≠ pool_config.creator then (.err .Unauthorized, s, [])
      else
        match s.xlm_token with
        | none => (.err .NotInitialized, s, [])
        | some xlm_token =>
          let eff := Effect.xlmTransfer xlm_token funder ext.contract_addr amount
          if ext.transfer_ok = false then (.err .TransferFailed, s, [eff])
          else
            let current := s.pool_balance hunt_id
            let new_balance := current + amount
            let s1 := setPoolBalance s hunt_id new_balance
            let total_deposited := s1.pool_total_deposited hunt_id + amount
            let s2 := setPoolTotalDeposited s1 hunt_id total_deposited
            (.ok, s2, [eff])

/-- `RewardManager::validate_pool` (src/contracts/reward-manager/src/lib.rs).
The function only reads storage; the state component is returned unchanged. -/
def validate_pool (s : ContractState) (hunt_id : Nat) (required_amount : Int) :
    ValidationResult × ContractState :=
  let balance := s.pool_balance hunt_id
  let is_valid :=
    match s.pool_config hunt_id with
    | some config =>
      let meets_balance := decide (required_amount > 0) && decide (balance ≥ required_amount)
      let meets_minimum := (config.min_distribution_amount == 0)
        || decide (required_amount ≥ config.min_distribution_amount)
      meets_balance && meets_minimum
    | none => false
  ({ is_valid := is_valid, balance := balance, required := required_amount }, s)

/-- The fungible section of `RewardManager::distribute_rewards`
(src/contracts/reward-manager/src/lib.rs, the `has_xlm` branch): validates the
amount against the pool configuration, token setup and balance, performs the
transfer and stages the balance/total updates.  Returns the amount actually
paid, the staged state and the attempted transfers. -/
def distribute_xlm_step (ext : Ext) (s : ContractState) (hunt_id : Nat)
    (player_address : Addr) (reward_config : RewardConfig) :
    InvokeResult RewardErrorCode × Int × ContractState × List Effect :=
  if reward_config.has_xlm then
    let amount := reward_config.xlm_amount.getD 0
    if amount ≤ 0 then (.err .InvalidAmount, 0, s, [])
    else
      let belowMin : Bool :=
        match s.pool_config hunt_id with
        | some pool_config =>
          decide (pool_config.min_distribution_amount > 0)
            && decide (amount < pool_config.min_distribution_amount)
        | none => false
      if belowMin then (.err .BelowMinimumAmount, 0, s, [])
      else
        match s.xlm_token with
        | none => (.err .NotInitialized, 0, s, [])
        | some xlm_token =>
          let pool_balance := s.pool_balance hunt_id
          if pool_balance < amount then (.err .InsufficientPool, 0, s, [])
          else
            let eff := Effect.xlmTransfer xlm_token ext.contract_addr
              player_address amount
            if ext.transfer_ok = false then (.err .TransferFailed, 0, s, [eff])
            else
              let s1 := setPoolBalance s hunt_id (pool_balance - amount)
              let s2 := setPoolTotalDistributed s1 hunt_id
                (s1.pool_total_distributed hunt_id + amount)
              (.ok, amount, s2, [eff])
  else (.ok, 0, s, [])

/-- The collectible section of `RewardManager::distribute_rewards`
(the `has_nft` branch): resolves the issuing contract (per-request reference,
else the stored default) and requests the mint.  Touches no contract storage;
returns the minted id and the attempted mint call. -/
def distribute_nft_step (ext : Ext) (s : ContractState) (hunt_id : Nat)
    (player_address : Addr) (reward_config : RewardConfig) :
    InvokeResult RewardErrorCode × Option Nat × List Effect :=
  if reward_config.has_nft then
    let resolved : Option Addr :=
      match reward_config.nft_contract with
      | some c => some c
      | none => s.nft_contract
    match resolved with
    | none => (.err .InvalidConfig, none, [])
    | some nft_contract =>
      let eff := Effect.nftMint nft_contract hunt_id player_address
      match ext.mint with
      | none => (.err .NftMintFailed, none, [eff])
      | some minted_id => (.ok, some minted_id, [eff])
  else (.ok, none, [])

/-- The body of `RewardManager::distribute_rewards`
(src/contracts/reward-manager/src/lib.rs), with storage writes staged on the
state and each attempted external call recorded.  Failure after a staged write
returns the staged state; the invocation wrapper below discards it. -/
def distribute_rewards_run (ext : Ext) (s : ContractState) (hunt_id : Nat)
    (player_address : Addr) (reward_config : RewardConfig) :
    InvokeResult RewardErrorCode × ContractState × List Effect :=
  if reward_config.is_valid = false then (.err .InvalidConfig, s, [])
  else if s.distributed hunt_id player_address then (.err .AlreadyDistributed, s, [])
  else
    match distribute_xlm_step ext s hunt_id player_address reward_config with
    | (.err e, _, s1, effs) => (.err e, s1, effs)
    | (.authTrap, _, s1, effs) => (.authTrap, s1, effs)
    | (.ok, xlm_amount, s1, effs) =>
      match distribute_nft_step ext s hunt_id player_address reward_config with
      | (.err e, _, effs2) => (.err e, s1, effs ++ effs2)
      | (.authTrap, _, effs2) => (.authTrap, s1, effs ++ effs2)
      | (.ok, nft_id, effs2) =>
        let s2 := setDistributed s1 hunt_id player_address
        let s3 := setDistributionRecord s2 hunt_id player_address
          { xlm_amount := xlm_amount, nft_id := nft_id }
        (.ok, s3, effs ++ effs2)

/-- `RewardManager::distribute_rewards` as one atomic invocation.
Modelled from the spec (§5): all state mutations of a failed invocation are
discarded by the host; the list of attempted external calls is kept so that
theorems can speak about which calls were reached before the abort. -/
def distribute_rewards (ext : Ext) (s : ContractState) (hunt_id : Nat)
    (player_address : Addr) (reward_config : RewardConfig) :
    InvokeResult RewardErrorCode × ContractState × List Effect :=
  match distribute_rewards_run ext s hunt_id player_address reward_config with
  | (.ok, s2, effs) => (.ok, s2, effs)
  | (.err e, _, effs) => (.err e, s, effs)
  | (.authTrap, _, effs) => (.authTrap, s, effs)

/-- `RewardManager::distribute_rewards_legacy`
(src/contracts/reward-manager/src/lib.rs): builds an XLM-only configuration
and reports whether `distribute_rewards` succeeded. -/
def distribute_rewards_legacy (ext : Ext) (s : ContractState) (player : Addr)
    (hunt_id : Nat) (xlm_amount : Int) (_nft_enabled : Bool) :
    Bool × ContractState × List Effect :=
  let config : RewardConfig :=
    { xlm_amount := if xlm_amount > 0 then some xlm_amount else none
      nft_contract := none
      nft_title := ""
      nft_description := ""
      nft_image_uri := ""
      nft_hunt_title := ""
      nft_rarity := 0
      nft_tier := 0 }
  match distribute_rewards ext s hunt_id player config with
  | (.ok, s2, effs) => (true, s2, effs)
  | (.err _, s2, effs) => (false, s2, effs)
  | (.authTrap, s2, effs) => (false, s2, effs)

/-- `RewardManager::initialize` stores the XLM token address
(`Storage::set_xlm_token`). -/
def set_xlm_token (s : ContractState) (addr : Addr) : ContractState :=
  { s with xlm_token := some addr }

/-- `RewardManager::set_nft_reward_contract` stores the default NFT contract. -/
def set_nft_contract (s : ContractState) (addr : Addr) : ContractState :=
  { s with nft_contract := some addr }

/-- NFT display metadata (src/contracts/nft-reward/src/lib.rs). -/
structure NftMetadata where
  title : String
  description : String
  image_uri : String
  hunt_title : String
  rarity : Nat
  tier : Nat
deriving DecidableEq, Repr

/-- NFT record stored on-chain (src/contracts/nft-reward/src/lib.rs). -/
structure NftData where
  nft_id : Nat
  hunt_id : Nat
  owner : Addr
  completion_player : Addr
  metadata : NftMetadata
  minted_at : Nat
deriving DecidableEq, Repr

/-- Persistent storage of the nft-reward contract.
Modelled from the spec: the nft-reward `Storage` module is not among the
sources; §1/§2 describe the collectible store as a straightforward keyed
record store, keyed here by the record's own `nft_id` as in `mint_reward_nft`. -/
structure NftState where
  nfts : Nat → Option NftData

/-- `Storage::save_nft`: stores the record under its own `nft_id`. -/
def save_nft (s : NftState) (nft : NftData) : NftState :=
  { s with nfts := Function.update s.nfts nft.nft_id (some nft) }

/-- `NftReward::update_nft_metadata` (src/contracts/nft-reward/src/lib.rs):
owner-only update of the mutable metadata fields. -/
def update_nft_metadata (ext : Ext) (s : NftState) (nft_id : Nat)
    (updater : Addr) (new_description new_image_uri : String) :
    InvokeResult NftErrorCode × NftState :=
  if ext.auth updater = false then (.authTrap, s)
  else
    match s.nfts nft_id with
    | none => (.err .NftNotFound, s)
    | some nft =>
      if nft.owner ≠ updater then (.err .NotOwner, s)
      else
        let md2 := { nft.metadata with
          description := new_description
          image_uri := new_image_uri }
        let nft2 := { nft with metadata := md2 }
        (.ok, save_nft s nft2)

/-- One public state-mutating call to the reward manager, together with the
invocation environment it runs under. -/
inductive Op where
  | create (ext : Ext) (creator : Addr) (hunt_id : Nat) (min_distribution_amount : Int)
  | fund (ext : Ext) (funder : Addr) (hunt_id : Nat) (amount : Int)
  | distribute (ext : Ext) (hunt_id : Nat) (player : Addr) (config : RewardConfig)
  | setToken (addr : Addr)
  | setNft (addr : Addr)

/-- The state left behind by one call (successful or failed). -/
def step (s : ContractState) (op : Op) : ContractState :=
  match op with
  | .create ext creator hunt_id m => (create_reward_pool ext s creator hunt_id m).2
  | .fund ext funder hunt_id amount => (fund_reward_pool ext s funder hunt_id amount).2.1
  | .distribute ext hunt_id player config =>
    (distribute_rewards ext s hunt_id player config).2.1
  | .setToken addr => set_xlm_token s addr
  | .setNft addr => set_nft_contract s addr

/-- The state after a finite sequence of calls. -/
def runOps (s : ContractState) (ops : List Op) : ContractState :=
  ops.foldl step s

/-- The bookkeeping invariant of every reachable state: each pool's balance is
its deposits minus its payouts, is non-negative, and a hunt with no pool
configuration has a zero balance. -/
def stateInv (s : ContractState) : Prop :=
  ∀ h, s.pool_balance h = s.pool_total_deposited h - s.pool_total_distributed h
    ∧ 0 ≤ s.pool_balance h
    ∧ (s.pool_config h = none → s.pool_balance h = 0)

def extOk : Ext := { auth := fun _ => true, contract_addr := 0, transfer_ok := true, mint := some 1 }

def emptyRewardConfig : RewardConfig :=
  { xlm_amount := none, nft_contract := none, nft_title := "", nft_description := "",
    nft_image_uri := "", nft_hunt_title := "", nft_rarity := 0, nft_tier := 0 }

def xlmOnlyCfg5 : RewardConfig := { emptyRewardConfig with xlm_amount := some 5 }

def flaggedState : ContractState :=
  { initialState with distributed := fun h p => decide (h = 1 ∧ p = 2) }

def zeroXlmNftCfg : RewardConfig :=
  { emptyRewardConfig with xlm_amount := some 0, nft_contract := some 7 }

def zeroXlmOnlyCfg : RewardConfig := { emptyRewardConfig with xlm_amount := some 0 }

/-- The pool-minimum gate of `distribute_rewards` passes for amount `a`:
either no pool configuration exists, or the configured minimum is unset
(≤ 0) or met. -/
def minCheckOk (s : ContractState) (hunt_id : Nat) (a : Int) : Prop :=
  match s.pool_config hunt_id with
  | some pc => pc.min_distribution_amount ≤ 0 ∨ pc.min_distribution_amount ≤ a
  | none => True

def mintFailState : ContractState :=
  { initialState with
      xlm_token := some 3
      pool_config := fun h => if h = 1 then some ⟨5, 0⟩ else none
      pool_balance := fun h => if h = 1 then 10 else 0
      pool_total_deposited := fun h => if h = 1 then 10 else 0 }

def mintFailCfg : RewardConfig :=
  { emptyRewardConfig with xlm_amount := some 4, nft_contract := some 7 }

def extMintFail : Ext := { extOk with mint := none }

/-- Modelled from the spec: the XLM-only configuration the spec assigns to the
legacy entry point — the fungible amount when positive, otherwise no fungible
part, and no collectible. -/
def legacySpecConfig (xlm_amount : Int) : RewardConfig :=
  { xlm_amount := if xlm_amount > 0 then some xlm_amount else none
    nft_contract := none
    nft_title := ""
    nft_description := ""
    nft_image_uri := ""
    nft_hunt_title := ""
    nft_rarity := 0
    nft_tier := 0 }

def nftWitState : NftState :=
  { nfts := fun i =>
      if i = 1 then some ⟨1, 9, 2, 2, ⟨"t", "d", "u", "h", 3, 0⟩, 100⟩ else none }

/-- Case analysis of the fungible step: it either fails (leaving the state
untouched, attempting at most the transfer itself), succeeds trivially when no
fungible reward is configured, or pays out a positive amount covered by the
pool balance. -/
lemma distribute_xlm_step_cases (ext : Ext) (s : ContractState) (hid : Nat)
    (p : Addr) (cfg : RewardConfig) :
    (∃ e effs, distribute_xlm_step ext s hid p cfg = (.err e, 0, s, effs)
      ∧ e ≠ RewardErrorCode.PoolNotFound
      ∧ ∀ x ∈ effs, ∃ tok a2, x = Effect.xlmTransfer tok ext.contract_addr p a2)
    ∨ (cfg.has_xlm = false ∧ distribute_xlm_step ext s hid p cfg = (.ok, 0, s, []))
    ∨ (∃ a tok, cfg.xlm_amount = some a ∧ 0 < a ∧ a ≤ s.pool_balance hid
        ∧ s.xlm_token = some tok
        ∧ distribute_xlm_step ext s hid p cfg =
          (.ok, a,
            setPoolTotalDistributed (setPoolBalance s hid (s.pool_balance hid - a)) hid
              (s.pool_total_distributed hid + a),
            [Effect.xlmTransfer tok ext.contract_addr p a])) := by
  unfold distribute_xlm_step
  by_cases hx : cfg.has_xlm
  · simp only [hx, if_true]
    cases hamt : cfg.xlm_amount with
    | none => simp [RewardConfig.has_xlm, hamt] at hx
    | some a =>
      simp only [Option.getD_some]
      by_cases hle : a ≤ 0
      · simp only [hle, if_true]
        left
        exact ⟨_, _, rfl, by simp, by simp⟩
      · simp only [hle, if_false]
        split
        · left; exact ⟨_, _, rfl, by simp, by simp⟩
        · cases htok : s.xlm_token with
          | none => left; exact ⟨_, _, rfl, by simp, by simp⟩
          | some tok =>
            by_cases hbal : s.pool_balance hid < a
            · simp only [hbal, if_true]
              left; exact ⟨_, _, rfl, by simp, by simp⟩
            · simp only [hbal, if_false]
              by_cases htr : ext.transfer_ok = false
              · simp only [htr, if_true]
                left
                refine ⟨_, _, rfl, by simp, ?_⟩
                intro x hx2
                simp at hx2
                exact ⟨tok, a, hx2⟩
              · simp only [htr, if_false]
                right; right
                exact ⟨a, tok, rfl, by omega, by omega, rfl, by simp [setPoolBalance]⟩
  · simp [hx]

/-- Case analysis of the collectible step: failure, skipped, or a mint. -/
lemma distribute_nft_step_cases (ext : Ext) (s : ContractState) (hid : Nat)
    (p : Addr) (cfg : RewardConfig) :
    (∃ e effs, distribute_nft_step ext s hid p cfg = (.err e, none, effs)
      ∧ e ≠ RewardErrorCode.PoolNotFound
      ∧ ∀ x ∈ effs, ∃ c, x = Effect.nftMint c hid p)
    ∨ (cfg.has_nft = false ∧ distribute_nft_step ext s hid p cfg = (.ok, none, []))
    ∨ (∃ c id2, distribute_nft_step ext s hid p cfg =
        (.ok, some id2, [Effect.nftMint c hid p])) := by
  unfold distribute_nft_step
  by_cases hn : cfg.has_nft
  · simp only [hn, if_true]
    cases hres : (match cfg.nft_contract with
      | some c => some c
      | none => s.nft_contract : Option Addr) with
    | none => left; exact ⟨_, _, rfl, by simp, by simp⟩
    | some c =>
      cases hm : ext.mint with
      | none =>
        left
        refine ⟨_, _, rfl, by simp, ?_⟩
        intro x hx2
        simp at hx2
        exact ⟨c, hx2⟩
      | some id2 => right; right; exact ⟨c, id2, rfl⟩
  · simp [hn]

/-- `distribute_rewards` never reports `PoolNotFound`. -/
lemma distribute_run_no_pool_not_found (ext : Ext) (s : ContractState) (hid : Nat)
    (p : Addr) (cfg : RewardConfig) :
    (distribute_rewards_run ext s hid p cfg).1 ≠ .err .PoolNotFound := by
  unfold distribute_rewards_run
  by_cases hv : cfg.is_valid = false
  · simp [hv]
  · simp only [hv, if_false]
    by_cases hd : s.distributed hid p
    · simp [hd]
    · simp only [hd, if_false]
      rcases distribute_xlm_step_cases ext s hid p cfg with
        ⟨e, effs, hstep, hne, _⟩ | ⟨_, hstep⟩ | ⟨a, tok, _, _, _, _, hstep⟩ <;>
        rw [hstep] <;> simp only []
      · simp [hne]
      all_goals
        rcases distribute_nft_step_cases ext s hid p cfg with
          ⟨e2, effs2, hstep2, hne2, _⟩ | ⟨_, hstep2⟩ | ⟨c, id2, hstep2⟩ <;>
          rw [hstep2] <;> simp_all

/-- State left by one `distribute_rewards` invocation: either unchanged, or the
committed distribution, whose pool bookkeeping is either untouched (no fungible
part) or decremented by the paid amount. -/
lemma distribute_rewards_state_cases (ext : Ext) (s : ContractState) (hid : Nat)
    (p : Addr) (cfg : RewardConfig) :
    (distribute_rewards ext s hid p cfg).2.1 = s
    ∨ ((distribute_rewards ext s hid p cfg).2.1.pool_config = s.pool_config
      ∧ (distribute_rewards ext s hid p cfg).2.1.pool_total_deposited = s.pool_total_deposited
      ∧ (((distribute_rewards ext s hid p cfg).2.1.pool_balance = s.pool_balance
          ∧ (distribute_rewards ext s hid p cfg).2.1.pool_total_distributed
            = s.pool_total_distributed)
        ∨ (∃ a, 0 < a ∧ a ≤ s.pool_balance hid
            ∧ (distribute_rewards ext s hid p cfg).2.1.pool_balance
              = Function.update s.pool_balance hid (s.pool_balance hid - a)
            ∧ (distribute_rewards ext s hid p cfg).2.1.pool_total_distributed
              = Function.update s.pool_total_distributed hid
                  (s.pool_total_distributed hid + a)))) := by
  unfold distribute_rewards distribute_rewards_run
  by_cases hv : cfg.is_valid = false
  · simp [hv]
  · simp only [hv, if_false]
    by_cases hd : s.distributed hid p
    · simp [hd]
    · simp only [hd, if_false]
      rcases distribute_xlm_step_cases ext s hid p cfg with
        ⟨e, effs, hstep, _, _⟩ | ⟨_, hstep⟩ | ⟨a, tok, _, ha, hbal, _, hstep⟩ <;>
        rw [hstep] <;> simp only []
      · simp
      · rcases distribute_nft_step_cases ext s hid p cfg with
          ⟨e2, effs2, hstep2, _, _⟩ | ⟨_, hstep2⟩ | ⟨c, id2, hstep2⟩ <;>
          rw [hstep2] <;> simp only []
        · simp
        · right
          refine ⟨?_, ?_, Or.inl ⟨?_, ?_⟩⟩ <;>
            simp [setDistributed, setDistributionRecord]
        · right
          refine ⟨?_, ?_, Or.inl ⟨?_, ?_⟩⟩ <;>
            simp [setDistributed, setDistributionRecord]
      · rcases distribute_nft_step_cases ext s hid p cfg with
          ⟨e2, effs2, hstep2, _, _⟩ | ⟨_, hstep2⟩ | ⟨c, id2, hstep2⟩ <;>
          rw [hstep2] <;> simp only []
        · simp
        · right
          refine ⟨?_, ?_, Or.inr ⟨a, ha, hbal, ?_, ?_⟩⟩ <;>
            simp [setDistributed, setDistributionRecord, setPoolBalance,
              setPoolTotalDistributed]
        · right
          refine ⟨?_, ?_, Or.inr ⟨a, ha, hbal, ?_, ?_⟩⟩ <;>
            simp [setDistributed, setDistributionRecord, setPoolBalance,
              setPoolTotalDistributed]

lemma stateInv_initial : stateInv initialState := by
  intro h
  simp [initialState, stateInv]

lemma stateInv_create (ext : Ext) (s : ContractState) (cr : Addr) (hid : Nat)
    (m : Int) (hs : stateInv s) : stateInv (create_reward_pool ext s cr hid m).2 := by
  unfold create_reward_pool
  split
  · exact hs
  split
  · exact hs
  split
  · exact hs
  intro h
  rcases hs h with ⟨h1, h2, h3⟩
  refine ⟨h1, h2, ?_⟩
  intro hnone
  apply h3
  by_cases he : h = hid
  · subst he
    simp [setPoolConfig, Function.update] at hnone
  · simpa [setPoolConfig, Function.update, he] using hnone

lemma stateInv_fund (ext : Ext) (s : ContractState) (funder : Addr) (hid : Nat)
    (amount : Int) (hs : stateInv s) :
    stateInv (fund_reward_pool ext s funder hid amount).2.1 := by
  unfold fund_reward_pool
  split
  · exact hs
  split
  next hle => exact hs
  next hle =>
  split
  · exact hs
  next pc hpc =>
  split
  · exact hs
  split
  · exact hs
  next tok htok =>
  split
  · exact hs
  intro h
  rcases hs h with ⟨h1, h2, h3⟩
  by_cases he : h = hid
  · subst he
    refine ⟨?_, ?_, ?_⟩ <;>
      simp [setPoolBalance, setPoolTotalDeposited, Function.update, hpc] <;> omega
  · refine ⟨?_, ?_, ?_⟩ <;>
      simp [setPoolBalance, setPoolTotalDeposited, Function.update, he]
    · exact h1
    · exact h2
    · exact h3

lemma stateInv_distribute (ext : Ext) (s : ContractState) (hid : Nat) (p : Addr)
    (cfg : RewardConfig) (hs : stateInv s) :
    stateInv (distribute_rewards ext s hid p cfg).2.1 := by
  rcases distribute_rewards_state_cases ext s hid p cfg with heq | ⟨hc, hdep, hrest⟩
  · rw [heq]; exact hs
  rcases hrest with ⟨hbal, hdist⟩ | ⟨a, ha, hab, hbal, hdist⟩
  · intro h
    rw [hc, hdep, hbal, hdist]
    exact hs h
  · intro h
    rw [hc, hdep, hbal, hdist]
    rcases hs h with ⟨h1, h2, h3⟩
    rcases hs hid with ⟨g1, g2, g3⟩
    by_cases he : h = hid
    · refine ⟨?_, ?_, ?_⟩ <;> simp [he, Function.update]
      · omega
      · omega
      · intro hnone
        have := g3 hnone
        omega
    · simp [Function.update, he]
      exact ⟨h1, h2, h3⟩

lemma stateInv_step (s : ContractState) (op : Op) (hs : stateInv s) :
    stateInv (step s op) := by
  cases op with
  | create ext cr hid m => exact stateInv_create ext s cr hid m hs
  | fund ext f hid a => exact stateInv_fund ext s f hid a hs
  | distribute ext hid p cfg => exact stateInv_distribute ext s hid p cfg hs
  | setToken a => exact fun h => hs h
  | setNft a => exact fun h => hs h

lemma stateInv_runOps (ops : List Op) : stateInv (runOps initialState ops) := by
  suffices h : ∀ s, stateInv s → stateInv (runOps s ops) from h _ stateInv_initial
  induction ops with
  | nil => exact fun s hs => hs
  | cons op rest ih =>
    intro s hs
    exact ih _ (stateInv_step s op hs)

/-- C1 (counterexample): with the `(1, 2)` DistributedFlag set, a request with
neither reward type is rejected with `InvalidConfig`, not `AlreadyDistributed`,
so the claim's "returns AlreadyDistributed for every request" fails. -/
theorem distribute_flag_set_counterexample :
    flaggedState.distributed 1 2 = true
    ∧ (distribute_rewards extOk flaggedState 1 2 emptyRewardConfig).1
        = .err .InvalidConfig
    ∧ (distribute_rewards extOk flaggedState 1 2 emptyRewardConfig).1
        ≠ .err .AlreadyDistributed := by
  refine ⟨by decide, by decide, by decide⟩

/-- C1 (amended): if the DistributedFlag for `(hunt_id, player)` is set,
`distribute_rewards` returns `AlreadyDistributed` for every *valid* request
(a request with neither reward type is rejected as `InvalidConfig` even
earlier); in all cases the stored state is returned unchanged and no external
call is attempted. -/
theorem distribute_flag_set_rejects (ext : Ext) (s : ContractState) (hunt_id : Nat)
    (player : Addr) (cfg : RewardConfig)
    (hflag : s.distributed hunt_id player = true) :
    (cfg.is_valid = true →
      (distribute_rewards ext s hunt_id player cfg).1 = .err .AlreadyDistributed)
    ∧ (distribute_rewards ext s hunt_id player cfg).2.1 = s
    ∧ (distribute_rewards ext s hunt_id player cfg).2.2 = [] := by
  cases hv : cfg.is_valid with
  | false => simp [distribute_rewards, distribute_rewards_run, hv, hflag]
  | true => simp [distribute_rewards, distribute_rewards_run, hv, hflag]

theorem distribute_flag_set_rejects_witness :
    (distribute_rewards extOk flaggedState 1 2 xlmOnlyCfg5).1 = .err .AlreadyDistributed
    ∧ (distribute_rewards extOk flaggedState 1 2 xlmOnlyCfg5).2.1 = flaggedState := by
  have h := distribute_flag_set_rejects extOk flaggedState 1 2 xlmOnlyCfg5 (by decide)
  exact ⟨h.1 (by decide), h.2.1⟩

/-- C3: after every finite sequence of reward-manager calls starting from a
fresh contract, each hunt's stored pool satisfies
`balance = total_deposited - total_distributed` and `balance ≥ 0`. -/
theorem pool_accounting_invariant (ops : List Op) (h : Nat) :
    (runOps initialState ops).pool_balance h
      = (runOps initialState ops).pool_total_deposited h
        - (runOps initialState ops).pool_total_distributed h
    ∧ 0 ≤ (runOps initialState ops).pool_balance h := by
  rcases stateInv_runOps ops h with ⟨h1, h2, _⟩
  exact ⟨h1, h2⟩

/-- C4: `validate_pool` reports valid exactly when a pool exists, the required
amount is positive and covered by the balance, and the pool minimum (when set)
is met; the result always carries the stored balance and the passed amount. -/
theorem validate_pool_spec (s : ContractState) (hunt_id : Nat) (required : Int) :
    ((validate_pool s hunt_id required).1.is_valid = true ↔
      ∃ config, s.pool_config hunt_id = some config
        ∧ 0 < required
        ∧ required ≤ s.pool_balance hunt_id
        ∧ (config.min_distribution_amount = 0
            ∨ config.min_distribution_amount ≤ required))
    ∧ (validate_pool s hunt_id required).1.balance = s.pool_balance hunt_id
    ∧ (validate_pool s hunt_id required).1.required = required := by
  refine ⟨?_, rfl, rfl⟩
  unfold validate_pool
  cases hc : s.pool_config hunt_id with
  | none => simp [hc]
  | some config =>
    simp only [hc, Bool.and_eq_true, Bool.or_eq_true, decide_eq_true_eq, beq_iff_eq,
      Option.some.injEq]
    constructor
    · rintro ⟨⟨hr, hb⟩, hm⟩
      exact ⟨config, rfl, hr, hb, by omega⟩
    · rintro ⟨config2, hc2, hr, hb, hm⟩
      subst hc2
      exact ⟨⟨hr, hb⟩, by omega⟩

/-- C7: `validate_pool` is side-effect-free: one call, and hence any number of
iterated calls, maps the stored contract state to itself. -/
theorem validate_pool_side_effect_free (s : ContractState) (hunt_id : Nat)
    (required : Int) :
    (validate_pool s hunt_id required).2 = s
    ∧ ∀ n : Nat, (fun st => (validate_pool st hunt_id required).2)^[n] s = s :=
  ⟨rfl, fun n => Function.iterate_fixed rfl n⟩

/-- C6 (counterexample): funding a never-created pool with amount 0 fails with
`InvalidAmount`, not `PoolNotFound`: the amount check runs first. -/
theorem fund_no_pool_counterexample :
    initialState.pool_config 1 = none
    ∧ (fund_reward_pool extOk initialState 5 1 0).1 = .err .InvalidAmount
    ∧ (fund_reward_pool extOk initialState 5 1 0).1 ≠ .err .PoolNotFound := by
  refine ⟨rfl, by decide, by decide⟩

/-- C6 (amended): with no PoolConfig for the hunt, `fund_reward_pool` fails
with `PoolNotFound` whenever `amount > 0`; for `amount ≤ 0` it fails with
`InvalidAmount` instead (the amount check precedes the pool lookup); in both
cases no stored state changes and no transfer is attempted. -/
theorem fund_no_pool_fails (ext : Ext) (s : ContractState) (funder : Addr)
    (hunt_id : Nat) (amount : Int)
    (hauth : ext.auth funder = true)
    (hcfg : s.pool_config hunt_id = none) :
    (0 < amount → (fund_reward_pool ext s funder hunt_id amount).1 = .err .PoolNotFound)
    ∧ (amount ≤ 0 → (fund_reward_pool ext s funder hunt_id amount).1 = .err .InvalidAmount)
    ∧ (fund_reward_pool ext s funder hunt_id amount).2.1 = s
    ∧ (fund_reward_pool ext s funder hunt_id amount).2.2 = [] := by
  by_cases hle : amount ≤ 0
  · simp [fund_reward_pool, hauth, hle, hcfg]
  · simp [fund_reward_pool, hauth, hle, hcfg]

theorem fund_no_pool_fails_witness :
    (fund_reward_pool extOk initialState 5 1 7).1 = .err .PoolNotFound
    ∧ (fund_reward_pool extOk initialState 5 1 7).2.1 = initialState := by
  have h := fund_no_pool_fails extOk initialState 5 1 7 (by decide) rfl
  exact ⟨h.1 (by decide), h.2.2.1⟩

/-- C5 (counterexample): a request carrying `xlm_amount = some 0` together
with a collectible is *not* rejected with `InvalidAmount`: the fungible part
is treated as absent (`has_xlm` demands a positive amount) and the
distribution succeeds. -/
theorem distribute_nonpositive_xlm_counterexample :
    zeroXlmNftCfg.xlm_amount = some 0
    ∧ (distribute_rewards extOk initialState 1 2 zeroXlmNftCfg).1 = .ok
    ∧ (distribute_rewards extOk initialState 1 2 zeroXlmNftCfg).1
        ≠ .err .InvalidAmount := by
  refine ⟨rfl, by decide, by decide⟩

/-- C5 (amended): a request whose fungible amount is present but ≤ 0 never
reaches the fungible path: the call never returns `InvalidAmount`; with no
collectible it is rejected with `InvalidConfig` before touching state; and in
every case the pool balances are left unchanged and no transfer is attempted. -/
theorem distribute_nonpositive_xlm (ext : Ext) (s : ContractState) (hunt_id : Nat)
    (player : Addr) (cfg : RewardConfig) (a : Int)
    (hamt : cfg.xlm_amount = some a) (ha : a ≤ 0) :
    (distribute_rewards ext s hunt_id player cfg).1 ≠ .err .InvalidAmount
    ∧ (cfg.nft_contract = none →
        (distribute_rewards ext s hunt_id player cfg).1 = .err .InvalidConfig)
    ∧ (distribute_rewards ext s hunt_id player cfg).2.1.pool_balance = s.pool_balance
    ∧ ∀ e ∈ (distribute_rewards ext s hunt_id player cfg).2.2,
        ∀ tok src dst amt, e ≠ Effect.xlmTransfer tok src dst amt := by
  have hx : cfg.has_xlm = false := by
    simp [RewardConfig.has_xlm, hamt]
    omega
  cases hn : cfg.nft_contract with
  | none =>
    have hv : cfg.is_valid = false := by
      simp [RewardConfig.is_valid, RewardConfig.has_nft, hx, hn]
    simp [distribute_rewards, distribute_rewards_run, hv]
  | some c =>
    have hv : cfg.is_valid = true := by
      simp [RewardConfig.is_valid, RewardConfig.has_nft, hx, hn]
    have hnft : cfg.has_nft = true := by simp [RewardConfig.has_nft, hn]
    cases hd : s.distributed hunt_id player with
    | true => simp [distribute_rewards, distribute_rewards_run, hv, hd]
    | false =>
      cases hm : ext.mint with
      | none =>
        simp [distribute_rewards, distribute_rewards_run, distribute_xlm_step,
          distribute_nft_step, hv, hd, hx, hnft, hn, hm]
      | some id2 =>
        simp [distribute_rewards, distribute_rewards_run, distribute_xlm_step,
          distribute_nft_step, hv, hd, hx, hnft, hn, hm,
          setDistributed, setDistributionRecord]

theorem distribute_nonpositive_xlm_witness :
    (distribute_rewards extOk initialState 1 2 zeroXlmOnlyCfg).1 ≠ .err .InvalidAmount
    ∧ (distribute_rewards extOk initialState 1 2 zeroXlmOnlyCfg).1 = .err .InvalidConfig := by
  have h := distribute_nonpositive_xlm extOk initialState 1 2 zeroXlmOnlyCfg 0 rfl
    (by decide)
  exact ⟨h.1, h.2.1 rfl⟩

/-- C2: if the fungible transfer step succeeds (positive requested amount,
minimum met, token configured, balance sufficient, transfer accepted) but the
collectible mint then fails, the invocation reports `NftMintFailed` and the
whole stored state — pool balance, totals, DistributedFlag, record — is
exactly as before: the staged transfer effects are rolled back. -/
theorem distribute_mint_failure_rollback (ext : Ext) (s : ContractState)
    (hunt_id : Nat) (player : Addr) (cfg : RewardConfig) (a : Int) (tok c : Addr)
    (hamt : cfg.xlm_amount = some a) (ha : 0 < a)
    (hflag : s.distributed hunt_id player = false)
    (hmin : minCheckOk s hunt_id a)
    (htok : s.xlm_token = some tok)
    (hbal : a ≤ s.pool_balance hunt_id)
    (htr : ext.transfer_ok = true)
    (hnft : cfg.nft_contract = some c)
    (hmint : ext.mint = none) :
    (distribute_rewards ext s hunt_id player cfg).1 = .err .NftMintFailed
    ∧ (distribute_rewards ext s hunt_id player cfg).2.1 = s
    ∧ (distribute_rewards ext s hunt_id player cfg).2.2 =
        [Effect.xlmTransfer tok ext.contract_addr player a,
         Effect.nftMint c hunt_id player] := by
  have hx : cfg.has_xlm = true := by
    simp [RewardConfig.has_xlm, hamt]
    omega
  have hv : cfg.is_valid = true := by simp [RewardConfig.is_valid, hx]
  have hnft2 : cfg.has_nft = true := by simp [RewardConfig.has_nft, hnft]
  have ha2 : ¬ a ≤ 0 := by omega
  have hbal2 : ¬ s.pool_balance hunt_id < a := by omega
  have hbm : (match s.pool_config hunt_id with
      | some pool_config =>
        decide (pool_config.min_distribution_amount > 0)
          && decide (a < pool_config.min_distribution_amount)
      | none => false) = false := by
    cases hpc : s.pool_config hunt_id with
    | none => rfl
    | some pc =>
      simp only [minCheckOk, hpc] at hmin
      simp only [Bool.and_eq_false_iff, decide_eq_false_iff_not]
      omega
  simp [distribute_rewards, distribute_rewards_run, distribute_xlm_step,
    distribute_nft_step, hv, hflag, hx, hamt, ha2, hbm, htok, hbal2, htr,
    hnft2, hnft, hmint]

theorem distribute_mint_failure_rollback_witness :
    (distribute_rewards extMintFail mintFailState 1 2 mintFailCfg).1 = .err .NftMintFailed
    ∧ (distribute_rewards extMintFail mintFailState 1 2 mintFailCfg).2.1 = mintFailState := by
  have h := distribute_mint_failure_rollback extMintFail mintFailState 1 2 mintFailCfg
    4 3 7 rfl (by decide) rfl (by simp [minCheckOk, mintFailState]) rfl (by decide)
    rfl rfl rfl
  exact ⟨h.1, h.2.1⟩

/-- C9: `distribute_rewards` never returns `PoolNotFound`; and in any reachable
state with no PoolConfig for the hunt, a request for a positive fungible amount
(token configured, DistributedFlag unset) fails with `InsufficientPool`,
because the never-written pool balance reads 0 and the minimum-amount check is
skipped when no PoolConfig exists. -/
theorem distribute_missing_pool (ext : Ext) (s : ContractState) (hunt_id : Nat)
    (player : Addr) (cfg : RewardConfig) (a : Int)
    (hreach : ∃ ops, s = runOps initialState ops)
    (hcfg : s.pool_config hunt_id = none)
    (hflag : s.distributed hunt_id player = false)
    (htok : s.xlm_token.isSome = true)
    (hamt : cfg.xlm_amount = some a) (ha : 0 < a) :
    (distribute_rewards ext s hunt_id player cfg).1 = .err .InsufficientPool
    ∧ ∀ (e2 : Ext) (s2 : ContractState) (h2 : Nat) (p2 : Addr) (c2 : RewardConfig),
        (distribute_rewards e2 s2 h2 p2 c2).1 ≠ .err .PoolNotFound := by
  constructor
  · obtain ⟨ops, hops⟩ := hreach
    have hbal : s.pool_balance hunt_id = 0 := by
      subst hops
      exact (stateInv_runOps ops hunt_id).2.2 hcfg
    obtain ⟨tok, htok2⟩ := Option.isSome_iff_exists.mp htok
    have hx : cfg.has_xlm = true := by
      simp [RewardConfig.has_xlm, hamt]
      omega
    have hv : cfg.is_valid = true := by simp [RewardConfig.is_valid, hx]
    have ha2 : ¬ a ≤ 0 := by omega
    have hbal2 : s.pool_balance hunt_id < a := by omega
    simp [distribute_rewards, distribute_rewards_run, distribute_xlm_step, hv,
      hflag, hx, hamt, ha2, hcfg, htok2, hbal2]
  · intro e2 s2 h2 p2 c2
    have hrun := distribute_run_no_pool_not_found e2 s2 h2 p2 c2
    unfold distribute_rewards
    cases hres : distribute_rewards_run e2 s2 h2 p2 c2 with
    | mk r rest =>
      obtain ⟨s3, effs⟩ := rest
      rw [hres] at hrun
      cases r <;> simp_all

theorem distribute_missing_pool_witness :
    (distribute_rewards extOk (runOps initialState [Op.setToken 3]) 1 2 xlmOnlyCfg5).1
      = .err .InsufficientPool := by
  have h := distribute_missing_pool extOk (runOps initialState [Op.setToken 3]) 1 2
    xlmOnlyCfg5 5 ⟨[Op.setToken 3], rfl⟩ rfl rfl rfl rfl (by decide)
  exact h.1

/-- The attempted external calls of a distribution whose request has no
collectible part are fungible transfers only: no mint is ever attempted. -/
lemma distribute_effects_no_mint (ext : Ext) (s : ContractState) (hid : Nat)
    (p : Addr) (cfg : RewardConfig) (hn : cfg.has_nft = false) :
    ∀ e ∈ (distribute_rewards ext s hid p cfg).2.2,
      ∀ c h2 r, e ≠ Effect.nftMint c h2 r := by
  have hnstep : distribute_nft_step ext s hid p cfg = (.ok, none, []) := by
    simp [distribute_nft_step, hn]
  unfold distribute_rewards distribute_rewards_run
  by_cases hv : cfg.is_valid = false
  · simp [hv]
  · simp only [hv, if_false]
    by_cases hd : s.distributed hid p
    · simp [hd]
    · simp only [hd, if_false]
      rcases distribute_xlm_step_cases ext s hid p cfg with
        ⟨e, effs, hstep, _, hall⟩ | ⟨_, hstep⟩ | ⟨a, tok, _, _, _, _, hstep⟩
      · rw [hstep]
        intro e2 he2 c h2 r
        simp only [] at he2
        obtain ⟨tok2, a2, rfl⟩ := hall e2 he2
        simp
      · rw [hstep, hnstep]
        simp
      · rw [hstep, hnstep]
        intro e2 he2 c h2 r
        simp at he2
        subst he2
        simp

/-- C8: `distribute_rewards_legacy` never attempts a collectible mint, even
with `nft_enabled = true`, and it returns `true` exactly when
`distribute_rewards` with the spec's XLM-only configuration succeeds on the
same state. -/
theorem legacy_never_mints_and_refines (ext : Ext) (s : ContractState)
    (player : Addr) (hunt_id : Nat) (amt : Int) (nft_enabled : Bool) :
    (∀ e ∈ (distribute_rewards_legacy ext s player hunt_id amt nft_enabled).2.2,
        ∀ c h2 r, e ≠ Effect.nftMint c h2 r)
    ∧ ((distribute_rewards_legacy ext s player hunt_id amt nft_enabled).1 = true ↔
        (distribute_rewards ext s hunt_id player (legacySpecConfig amt)).1 = .ok) := by
  have hkey : distribute_rewards_legacy ext s player hunt_id amt nft_enabled =
      (match distribute_rewards ext s hunt_id player (legacySpecConfig amt) with
       | (.ok, s2, effs) => (true, s2, effs)
       | (.err _, s2, effs) => (false, s2, effs)
       | (.authTrap, s2, effs) => (false, s2, effs)) := rfl
  rw [hkey]
  have hn : (legacySpecConfig amt).has_nft = false := rfl
  have hmint := distribute_effects_no_mint ext s hunt_id player (legacySpecConfig amt) hn
  cases hres : distribute_rewards ext s hunt_id player (legacySpecConfig amt) with
  | mk r rest =>
    obtain ⟨s2, effs⟩ := rest
    rw [hres] at hmint
    cases r <;> simp_all

/-- C10: a successful `update_nft_metadata` requires the updater to be the
current owner (`NftNotFound` when the id is unknown, `NotOwner` otherwise,
each leaving the store untouched); on success only the metadata's description
and image URI change — id, hunt, owner, completion player, title, hunt title,
rarity, tier and mint time are all preserved. -/
theorem update_nft_metadata_spec (ext : Ext) (s : NftState) (nft_id : Nat)
    (updater : Addr) (d u : String)
    (hauth : ext.auth updater = true) :
    (s.nfts nft_id = none →
      update_nft_metadata ext s nft_id updater d u = (.err .NftNotFound, s))
    ∧ (∀ nft, s.nfts nft_id = some nft → nft.owner ≠ updater →
        update_nft_metadata ext s nft_id updater d u = (.err .NotOwner, s))
    ∧ (∀ nft, s.nfts nft_id = some nft → nft.owner = updater →
        (update_nft_metadata ext s nft_id updater d u).1 = .ok
        ∧ (update_nft_metadata ext s nft_id updater d u).2.nfts =
            Function.update s.nfts nft.nft_id
              (some ⟨nft.nft_id, nft.hunt_id, nft.owner, nft.completion_player,
                ⟨nft.metadata.title, d, u, nft.metadata.hunt_title,
                 nft.metadata.rarity, nft.metadata.tier⟩, nft.minted_at⟩)) := by
  refine ⟨?_, ?_, ?_⟩
  · intro hnone
    simp [update_nft_metadata, hauth, hnone]
  · intro nft hsome hne
    simp [update_nft_metadata, hauth, hsome, hne]
  · intro nft hsome heq
    constructor <;> simp [update_nft_metadata, hauth, hsome, heq, save_nft]

theorem update_nft_metadata_spec_witness :
    (update_nft_metadata extOk nftWitState 1 2 "nd" "nu").1 = .ok :=
  ((update_nft_metadata_spec extOk nftWitState 1 2 "nd" "nu" rfl).2.2
    ⟨1, 9, 2, 2, ⟨"t", "d", "u", "h", 3, 0⟩, 100⟩ rfl rfl).1


theorem pool_accounting_invariant_witness :
    (runOps initialState []).pool_balance 1
      = (runOps initialState []).pool_total_deposited 1
        - (runOps initialState []).pool_total_distributed 1
    ∧ 0 ≤ (runOps initialState []).pool_balance 1 :=
  pool_accounting_invariant [] 1

theorem validate_pool_spec_witness :
    (validate_pool initialState 1 5).1.balance = initialState.pool_balance 1
    ∧ (validate_pool initialState 1 5).1.required = 5 :=
  ⟨(validate_pool_spec initialState 1 5).2.1, (validate_pool_spec initialState 1 5).2.2⟩

theorem validate_pool_side_effect_free_witness :
    (validate_pool initialState 1 5).2 = initialState :=
  (validate_pool_side_effect_free initialState 1 5).1

theorem legacy_never_mints_and_refines_witness :
    ((distribute_rewards_legacy extOk initialState 2 1 5 true).1 = true ↔
      (distribute_rewards extOk initialState 1 2 (legacySpecConfig 5)).1 = .ok) :=
  (legacy_never_mints_and_refines extOk initialState 2 1 5 true).2

end Hunty
